import Mathlib

/-!
Shallow embedding of `src/kleinanzeigen_scraper/scraper.py`.

Strings are modelled by Lean `String` (lists of characters); the regular
expression character classes of the Python `re` module are modelled
faithfully on the ASCII plane (where `\s` is tab, LF, VT, FF, CR, FS, GS,
RS, US and space, and `\d` is 0–9), and the claims touching them carry an
ASCII-text hypothesis because Python's classes additionally match
characters beyond ASCII.  The URL resolution of `urllib.parse.urljoin` is
modelled for plain path references, including its RFC 3986 dot-segment
removal.
The HTML parser (BeautifulSoup) and the HTTP transport (requests) are
external libraries used as black boxes: a fetched page is modelled by the
data the scraper reads off it — the HTTP status code, the `href` targets of
its anchor elements in document order, and its raw text.  The network is a
function from page number to a fallible page, where page 1 stands for the
GET of the (query-stripped) base URL and page `n ≥ 2` for the GET of
`base_url?seite=n`.  The unbounded `while True` loop is given an explicit
fuel parameter; running out of fuel is a distinguished model-only outcome.
-/

namespace Kleinanzeigen

/-- Fixed marketplace origin that relative hrefs are joined against
(`urljoin("https://www.kleinanzeigen.de", href)` in `parse_listing_links`). -/
def marketplaceOrigin : String := "https://www.kleinanzeigen.de"

/-- Listing-path marker segment: the scraper keeps exactly the anchors whose
href contains this substring (line `if "/s-anzeige/" in href` of the source). -/
def listingMarker : String := "/s-anzeige/"

/-- Python's substring test `pattern in s`, modelled as list-of-characters
infix containment. -/
def hasSubstr (s pattern : String) : Bool :=
  decide (pattern.data <:+: s.data)

/-- Python's `s.startswith(pre)`, modelled as list-of-characters prefix. -/
def startsWithStr (s pre : String) : Bool :=
  decide (pre.data <+: s.data)

/-- Splitting of a path on "/" (Python `path.split('/')`), on character
lists; always returns at least one (possibly empty) segment, and no segment
contains "/". -/
def splitSeg : List Char → List (List Char)
  | [] => [[]]
  | c :: cs =>
    match splitSeg cs with
    | [] => [[c]]
    | s :: ss => if c = '/' then [] :: s :: ss else (c :: s) :: ss

/-- Joining of path segments with "/" (Python `'/'.join(segments)`). -/
def joinSeg : List (List Char) → List Char
  | [] => []
  | [s] => s
  | s :: ss => s ++ '/' :: joinSeg ss

/-- Last element of a segment list (Python `segments[-1]`), empty for an
empty list. -/
def lastSeg : List (List Char) → List Char
  | [] => []
  | [s] => s
  | _ :: ss => lastSeg ss

/-- Dot-segment loop of `urllib.parse.urljoin`: ".." pops the last collected
segment (the IndexError of popping an empty list is silently ignored), "."
is skipped, every other segment is kept.  The accumulator holds the
collected segments in reverse. -/
def resolveSegs : List (List Char) → List (List Char) → List (List Char)
  | acc, [] => acc.reverse
  | acc, seg :: rest =>
    if seg = ['.', '.'] then resolveSegs acc.tail rest
    else if seg = ['.'] then resolveSegs acc rest
    else resolveSegs (seg :: acc) rest

/-- Resolved segment list of `urljoin`: the dot-segment loop's output, with
a trailing empty segment restored when the path ends in "." or ".."
(`if segments[-1] in ('.', '..'): resolved_path.append('')`). -/
def resolvedList (segs : List (List Char)) : List (List Char) :=
  if lastSeg segs = ['.'] ∨ lastSeg segs = ['.', '.']
  then resolveSegs [] segs ++ [[]] else resolveSegs [] segs

/-- Resolved path of `urljoin`: join the resolved segments, falling back to
"/" for an empty join (`'/'.join(resolved_path) or '/'`). -/
def resolvePath (segs : List (List Char)) : List Char :=
  if joinSeg (resolvedList segs) = [] then ['/'] else joinSeg (resolvedList segs)

/-- Re-rooting step of `urlunsplit`: with a network location present, a path
that does not start with "/" gets one prepended. -/
def absPath (p : List Char) : List Char :=
  match p with
  | '/' :: _ => p
  | _ => '/' :: p

/-- Segment list `urljoin` resolves for a relative (non-rooted) path against
the origin, whose own path is empty: the empty base segment, then the
href's segments with empty interior segments dropped
(`segments[1:-1] = filter(None, segments[1:-1])`), the last segment kept. -/
def relSegments (split : List (List Char)) : List (List Char) :=
  [] :: (split.dropLast.filter (fun s => !s.isEmpty)) ++ [lastSeg split]

/-- Models `urllib.parse.urljoin(base, href)` against the marketplace origin
for hrefs that are plain path references (no scheme, authority, query or
fragment — the form the marketplace markup produces): the href's segments
(merged against the origin's empty path when the href is not root-relative)
are resolved with RFC 3986 dot-segment removal exactly as the Python
implementation does, rejoined, and attached to the origin. -/
def urljoin (base href : String) : String :=
  if startsWithStr href "/" then
    ⟨base.data ++ absPath (resolvePath (splitSeg href.data))⟩
  else
    ⟨base.data ++ absPath (resolvePath (relSegments (splitSeg href.data)))⟩

/-- Computation of the `full_url` local of `parse_listing_links`: an href
that does not already start with `"http"` is joined against the marketplace
origin. -/
def resolveHref (href : String) : String :=
  if startsWithStr href "http" then href else urljoin marketplaceOrigin href

/-- Body of the `for a in soup.find_all("a", href=True)` loop of
`parse_listing_links`.  The argument `seen` models the Python `seen` set
(as a list with membership up to string equality) and the returned list
models `links`, built in document order.  Falsy (empty) hrefs are skipped,
only hrefs containing the listing marker are kept, non-absolute hrefs are
joined against the marketplace origin, and a URL already in `seen` is not
recorded twice. -/
def parseGo : List String → List String → List String
  | _, [] => []
  | seen, href :: rest =>
    if href = "" then parseGo seen rest
    else if hasSubstr href listingMarker then
      if resolveHref href ∈ seen then parseGo seen rest
      else resolveHref href :: parseGo (resolveHref href :: seen) rest
    else parseGo seen rest

/-- Embedding of `parse_listing_links(html)`.  The HTML input is modelled by
the sequence of `href` attributes of its anchor elements in document order,
which is all the black-box HTML parser hands to this function. -/
def parse_listing_links (anchors : List String) : List String :=
  parseGo [] anchors

/-- Character class `\d` of the Python pattern on the ASCII plane, where it
matches exactly the digits 0–9.  Outside ASCII, Python's `\d` also matches
other Unicode decimal digits, so the absent-result claim about this matcher
is stated for ASCII texts, on which the model and the program agree. -/
def isDigitChar (c : Char) : Bool :=
  48 ≤ c.toNat && c.toNat ≤ 57

/-- Character class `\s` of the Python pattern on the ASCII plane, where it
matches exactly tab, LF, VT, FF, CR, FS, GS, RS, US and space.  Outside
ASCII, Python's `\s` also matches Unicode whitespace such as U+0085 and
U+00A0, so the absent-result claim about this matcher is stated for ASCII
texts, on which the model and the program agree. -/
def isSpaceChar (c : Char) : Bool :=
  c = ' ' || c = '\t' || c = '\n' || c = '\r' || c = '\x0b' || c = '\x0c' ||
  c = '\x1c' || c = '\x1d' || c = '\x1e' || c = '\x1f'

/-- Numeric value of an ASCII digit character. -/
def digitVal (c : Char) : Nat := c.toNat - 48

/-- Models `int(match.group(1))` on the captured digit string, accumulator
style. -/
def natOfDigits : List Char → Nat → Nat
  | [], acc => acc
  | c :: cs, acc => natOfDigits cs (10 * acc + digitVal c)

/-- Matcher for a literal word of the pattern: strips `w` from the front of
the input, or fails. -/
def stripWord : List Char → List Char → Option (List Char)
  | [], cs => some cs
  | _ :: _, [] => none
  | w :: ws, c :: cs => if c = w then stripWord ws cs else none

/-- Matcher for `\s+`: requires at least one whitespace character and
consumes the maximal whitespace run (the literal word following `\s+` in the
pattern starts with a non-whitespace character, so the greedy run is the only
viable one). -/
def dropSpaces1 : List Char → Option (List Char)
  | [] => none
  | c :: cs => if isSpaceChar c then some (cs.dropWhile isSpaceChar) else none

/-- Matcher for the tail `\s+Anzeigen\s+online` of the pattern at the front
of the input (the rest of the text after it is unconstrained, as under
`re.search`). -/
def matchTail (cs : List Char) : Bool :=
  match dropSpaces1 cs with
  | none => false
  | some cs1 =>
    match stripWord "Anzeigen".data cs1 with
    | none => false
    | some cs2 =>
      match dropSpaces1 cs2 with
      | none => false
      | some cs3 => (stripWord "online".data cs3).isSome

/-- Backtracking over the greedy quantifier `{1,5}`: tries a capture of `k`
digits for `k` from the given bound down to 1, succeeding on the first `k`
whose remainder matches the tail of the pattern. -/
def tryDigitLens (cs : List Char) : Nat → Option Nat
  | 0 => none
  | k + 1 =>
    if matchTail (cs.drop (k + 1)) then some (natOfDigits (cs.take (k + 1)) 0)
    else tryDigitLens cs k

/-- Attempt to match `(\d{1,5})\s+Anzeigen\s+online` at the front of the
input: the greedy capture can only take digit characters, at most five of
them. -/
def matchCountAt (cs : List Char) : Option Nat :=
  tryDigitLens cs (min 5 (cs.takeWhile isDigitChar).length)

/-- Leftmost-match scan of `re.search`: try every start position from the
left, returning the first successful match's captured value. -/
def searchCount : List Char → Option Nat
  | [] => none
  | c :: cs =>
    match matchCountAt (c :: cs) with
    | some n => some n
    | none => searchCount cs

/-- Embedding of `extract_total_count(html)`: first match of
`(\d{1,5})\s+Anzeigen\s+online` in the text, as an integer.  The
`int(...)` parse of a digit-only capture cannot fail, so the defensive
`except ValueError` branch of the source is unreachable and the value is
returned directly. -/
def extract_total_count (html : String) : Option Nat :=
  searchCount html.data

/-- Embedding of `math.ceil(total_ads / 25)` on natural numbers. -/
def expectedPages (total : Nat) : Nat := (total + 24) / 25

/-- Embedding of the page-count estimation of `scrape_seller_listings`
(`num_pages = None; if total_ads: num_pages = math.ceil(total_ads / 25)`).
Python truthiness makes a count of `0` behave exactly like an absent
count. -/
def numPagesOf : Option Nat → Option Nat
  | none => none
  | some t => if t = 0 then none else some (expectedPages t)

/-- Embedding of the loop guard `if num_pages and page > num_pages`, with
Python truthiness on `num_pages`. -/
def pageLimitReached (numPages : Option Nat) (page : Nat) : Bool :=
  match numPages with
  | none => false
  | some n => if n = 0 then false else decide (n < page)

/-- Data the scraper reads off one fetched page: HTTP status code, the
anchor hrefs of the body in document order, and the raw body text. -/
structure Page where
  status : Nat
  anchors : List String
  rawText : String
deriving DecidableEq

/-- Network model: page number 1 stands for the GET of the query-stripped
base URL, page `n ≥ 2` for the GET of `base_url?seite=n`; `Except.error`
models an exception raised by the transport (network error, timeout). -/
def Network : Type := Nat → Except Unit Page

/-- Errors that escape `scrape_seller_listings` to its caller. -/
inductive ScrapeError where
  | network : ScrapeError
  | httpStatus : Nat → ScrapeError
deriving DecidableEq

/-- Outcome of a run of the scraper; `outOfFuel` is a model-only artifact
marking that the explicit fuel of the embedded `while True` loop ran out
while the real loop would still be iterating. -/
inductive ScrapeOutcome where
  | ok : List String → ScrapeOutcome
  | error : ScrapeError → ScrapeOutcome
  | outOfFuel : ScrapeOutcome
deriving DecidableEq

/-- Embedding of the `while True` pagination loop of
`scrape_seller_listings`, starting from accumulated links `links` at page
number `page`.  The first component of the result records which page numbers
were requested by this loop, in order; the second is the outcome.  Each
iteration mirrors the source: stop when the page limit is exceeded, fetch
(propagating a transport exception), stop silently on a status other than
200, parse, stop silently when no link is new, otherwise extend the
accumulator and advance. -/
def scrapeLoop (net : Network) (numPages : Option Nat) :
    Nat → List String → Nat → List Nat × ScrapeOutcome
  | 0, _, _ => ([], ScrapeOutcome.outOfFuel)
  | fuel + 1, links, page =>
    if pageLimitReached numPages page then ([], ScrapeOutcome.ok links)
    else
      match net page with
      | Except.error _ => ([page], ScrapeOutcome.error ScrapeError.network)
      | Except.ok p =>
        if p.status ≠ 200 then ([page], ScrapeOutcome.ok links)
        else
          let pageLinks := parse_listing_links p.anchors
          let newLinks := pageLinks.filter (fun u => !(links.contains u))
          if newLinks = [] then ([page], ScrapeOutcome.ok links)
          else
            let rest := scrapeLoop net numPages fuel (links ++ newLinks) (page + 1)
            (page :: rest.fst, rest.snd)

/-- Embedding of `scrape_seller_listings(base_url)`.  Page 1 is fetched
first; a transport exception propagates, and `resp.raise_for_status()`
raises exactly on the HTTP error statuses 400–599.  Otherwise page 1 seeds
the link collection and the count hint, and the pagination loop runs from
page 2.  The first component of the result is the ordered log of requested
page numbers. -/
def scrape_seller_listings (net : Network) (fuel : Nat) :
    List Nat × ScrapeOutcome :=
  match net 1 with
  | Except.error _ => ([1], ScrapeOutcome.error ScrapeError.network)
  | Except.ok p1 =>
    if 400 ≤ p1.status ∧ p1.status < 600 then
      ([1], ScrapeOutcome.error (ScrapeError.httpStatus p1.status))
    else
      let allLinks := parse_listing_links p1.anchors
      let numPages := numPagesOf (extract_total_count p1.rawText)
      let rest := scrapeLoop net numPages fuel allLinks 2
      (1 :: rest.fst, rest.snd)

/-- Spec-side notion used by the claims: an HTTP status is a success exactly
when it is in the 2xx class. -/
def successStatus (s : Nat) : Bool :=
  200 ≤ s && s < 300

/-- Spec-side notion used by the claims about `extract_total_count`: the
text contains, at some position, one to five digits, then whitespace, then
the word for "ads", then whitespace, then the word for "online". -/
def PatternOccurrence (cs : List Char) : Prop :=
  ∃ pre ds sp1 sp2 post : List Char,
    cs = pre ++ ds ++ sp1 ++ "Anzeigen".data ++ sp2 ++ "online".data ++ post ∧
    1 ≤ ds.length ∧ ds.length ≤ 5 ∧ (∀ c ∈ ds, isDigitChar c = true) ∧
    sp1 ≠ [] ∧ (∀ c ∈ sp1, isSpaceChar c = true) ∧
    sp2 ≠ [] ∧ (∀ c ∈ sp2, isSpaceChar c = true)

/-- Payload of a generated download.  The `txt` branch is plain source code
and is embedded concretely; the CSV, spreadsheet and word-processing
payloads are produced by the pandas/openpyxl/python-docx backends, which are
black boxes, so they are modelled as opaque functions of the link list. -/
inductive FilePayload where
  | text : String → FilePayload
  | csvTable : List String → FilePayload
  | xlsxSheet : List String → FilePayload
  | docxDocument : List String → FilePayload
deriving DecidableEq

/-- Errors raised by `create_download_file`: the `ValueError` for an
unsupported file type, and the `ImportError` when python-docx is absent. -/
inductive DownloadError where
  | unsupportedFileType : String → DownloadError
  | missingDocxDependency : DownloadError
deriving DecidableEq

/-- Embedding of `create_download_file(links, file_type)`.  The extra
argument `docxAvailable` models whether the lazily imported python-docx
backend is present at runtime. -/
def create_download_file (docxAvailable : Bool) (links : List String)
    (file_type : String) : Except DownloadError (String × FilePayload) :=
  if file_type = "txt" then
    Except.ok ("text/plain", FilePayload.text (String.intercalate "\n" links))
  else if file_type = "csv" then
    Except.ok ("text/csv", FilePayload.csvTable links)
  else if file_type = "xlsx" then
    Except.ok ("application/vnd.openxmlformats-officedocument.spreadsheetml.sheet",
      FilePayload.xlsxSheet links)
  else if file_type = "docx" then
    if docxAvailable then
      Except.ok ("application/vnd.openxmlformats-officedocument.wordprocessingml.document",
        FilePayload.docxDocument links)
    else Except.error DownloadError.missingDocxDependency
  else Except.error (DownloadError.unsupportedFileType file_type)

/-- Mocked network: the seller page announces 30 ads (2 expected pages at 25
per page) and every page always offers a fresh link, so only the count bound
can stop the loop. -/
def netCountBound : Network
  | 1 => Except.ok ⟨200, ["/s-anzeige/a-1", "/s-anzeige/b-2"], "30 Anzeigen online"⟩
  | 2 => Except.ok ⟨200, ["/s-anzeige/c-3"], ""⟩
  | _ => Except.ok ⟨200, ["/s-anzeige/d-4"], ""⟩

/-- Mocked network: the seller page announces a total count of zero ads while
pages keep yielding fresh links until page 3 answers 404. -/
def netZeroCount : Network
  | 1 => Except.ok ⟨200, ["/s-anzeige/a-1"], "0 Anzeigen online"⟩
  | 2 => Except.ok ⟨200, ["/s-anzeige/b-2"], ""⟩
  | _ => Except.ok ⟨404, [], ""⟩

/-- Mocked network of three pages where page 3 repeats links already seen on
pages 1 and 2, while a hypothetical page 4 would offer a fresh link. -/
def netThreePages : Network
  | 1 => Except.ok ⟨200, ["/s-anzeige/a-1", "/s-anzeige/b-2"], ""⟩
  | 2 => Except.ok ⟨200, ["/s-anzeige/b-2", "/s-anzeige/c-3"], ""⟩
  | 3 => Except.ok ⟨200, ["/s-anzeige/a-1", "/s-anzeige/c-3"], ""⟩
  | _ => Except.ok ⟨200, ["/s-anzeige/z-9"], ""⟩

/-- Mocked network whose first response is a 304, a status outside the 2xx
success class that `raise_for_status` does not treat as an error. -/
def netRedirect : Network
  | 1 => Except.ok ⟨304, ["/s-anzeige/only-1"], ""⟩
  | _ => Except.ok ⟨404, [], ""⟩

/-- Mocked network on which every request raises a transport error. -/
def netFailFirst : Network := fun _ => Except.error ()

/-- Mocked network answering 500 on every page. -/
def netServerError : Network := fun _ => Except.ok ⟨500, ["/s-anzeige/x-9"], ""⟩

/-- Text containing the phrase "1489 Anzeigen online" behind an earlier
occurrence of the counting pattern. -/
def c6Text : String := "0 Anzeigen online und 1489 Anzeigen online"

end Kleinanzeigen

namespace Kleinanzeigen

theorem startsWithStr_http_ne_empty (s : String)
    (h : startsWithStr s "http" = true) : s ≠ "" := by
  intro he
  subst he
  exact absurd h (by decide)

theorem parseGo_fresh_nodup :
    ∀ (hrefs seen : List String),
      (∀ u ∈ parseGo seen hrefs, u ∉ seen) ∧ (parseGo seen hrefs).Nodup := by
  intro hrefs
  induction hrefs with
  | nil => intro seen; simp [parseGo]
  | cons href rest ih =>
    intro seen
    by_cases h0 : href = ""
    · simpa [parseGo, h0] using ih seen
    · by_cases hm : hasSubstr href listingMarker = true
      · by_cases hin : resolveHref href ∈ seen
        · simpa [parseGo, h0, hm, hin] using ih seen
        · have ihx := ih (resolveHref href :: seen)
          constructor
          · intro u hu
            rw [parseGo, if_neg h0, if_pos hm, if_neg hin] at hu
            rcases List.mem_cons.mp hu with rfl | hu
            · exact hin
            · intro hmem
              exact ihx.1 u hu (List.mem_cons_of_mem _ hmem)
          · rw [parseGo, if_neg h0, if_pos hm, if_neg hin]
            refine List.nodup_cons.mpr ⟨?_, ihx.2⟩
            intro hmem
            exact ihx.1 _ hmem (List.mem_cons_self _ _)
      · simpa [parseGo, h0, hm] using ih seen

theorem parseGo_mem (href : String) (h0 : href ≠ "")
    (hm : hasSubstr href listingMarker = true) :
    ∀ (hrefs seen : List String), href ∈ hrefs →
      resolveHref href ∈ parseGo seen hrefs ∨ resolveHref href ∈ seen := by
  intro hrefs
  induction hrefs with
  | nil => intro seen h; simp at h
  | cons a rest ih =>
    intro seen hmem
    rcases List.mem_cons.mp hmem with rfl | hmem
    · rw [parseGo, if_neg h0, if_pos hm]
      by_cases hin : resolveHref href ∈ seen
      · rw [if_pos hin]; exact Or.inr hin
      · rw [if_neg hin]; exact Or.inl (List.mem_cons_self _ _)
    · by_cases ha0 : a = ""
      · rw [parseGo, if_pos ha0]; exact ih seen hmem
      · by_cases ham : hasSubstr a listingMarker = true
        · by_cases hain : resolveHref a ∈ seen
          · rw [parseGo, if_neg ha0, if_pos ham, if_pos hain]
            exact ih seen hmem
          · rw [parseGo, if_neg ha0, if_pos ham, if_neg hain]
            rcases ih (resolveHref a :: seen) hmem with h | h
            · exact Or.inl (List.mem_cons_of_mem _ h)
            · rcases List.mem_cons.mp h with heq | h
              · exact Or.inl (by rw [heq]; exact List.mem_cons_self _ _)
              · exact Or.inr h
        · rw [parseGo, if_neg ha0, if_neg ham]; exact ih seen hmem

/-- Claim C3: for every HTML input, the sequence returned by
`parse_listing_links` contains no duplicate URLs (by exact string equality)
and preserves first-occurrence order: for listing anchors appearing in order
A, B, A, C (pairwise distinct absolute listing URLs), the output is
A, B, C. -/
theorem claim_parse_listing_links_nodup_order :
    (∀ anchors : List String, (parse_listing_links anchors).Nodup) ∧
    (∀ A B C : String,
      hasSubstr A listingMarker = true → hasSubstr B listingMarker = true →
      hasSubstr C listingMarker = true →
      startsWithStr A "http" = true → startsWithStr B "http" = true →
      startsWithStr C "http" = true →
      A ≠ B → C ≠ A → C ≠ B →
      parse_listing_links [A, B, A, C] = [A, B, C]) := by
  constructor
  · intro anchors
    exact (parseGo_fresh_nodup anchors []).2
  · intro A B C hmA hmB hmC hsA hsB hsC hAB hCA hCB
    have hA0 : A ≠ "" := startsWithStr_http_ne_empty A hsA
    have hB0 : B ≠ "" := startsWithStr_http_ne_empty B hsB
    have hC0 : C ≠ "" := startsWithStr_http_ne_empty C hsC
    have hrA : resolveHref A = A := by rw [resolveHref, if_pos hsA]
    have hrB : resolveHref B = B := by rw [resolveHref, if_pos hsB]
    have hrC : resolveHref C = C := by rw [resolveHref, if_pos hsC]
    simp [parse_listing_links, parseGo, hA0, hB0, hC0, hmA, hmB, hmC,
      hrA, hrB, hrC, hAB, hCA, hCB, Ne.symm hAB]

/-- Witness for claim C3 at concrete pairwise-distinct absolute listing
URLs. -/
theorem claim_parse_listing_links_nodup_order_witness :
    parse_listing_links
      ["https://www.kleinanzeigen.de/s-anzeige/a-1",
       "https://www.kleinanzeigen.de/s-anzeige/b-2",
       "https://www.kleinanzeigen.de/s-anzeige/a-1",
       "https://www.kleinanzeigen.de/s-anzeige/c-3"] =
      ["https://www.kleinanzeigen.de/s-anzeige/a-1",
       "https://www.kleinanzeigen.de/s-anzeige/b-2",
       "https://www.kleinanzeigen.de/s-anzeige/c-3"] :=
  claim_parse_listing_links_nodup_order.2
    "https://www.kleinanzeigen.de/s-anzeige/a-1"
    "https://www.kleinanzeigen.de/s-anzeige/b-2"
    "https://www.kleinanzeigen.de/s-anzeige/c-3"
    (by decide) (by decide) (by decide) (by decide) (by decide) (by decide)
    (by decide) (by decide) (by decide)

/-- Claim C5: every anchor whose target is the relative path
"/s-anzeige/foo-123" is resolved by joining against the fixed marketplace
origin, producing exactly "https://www.kleinanzeigen.de/s-anzeige/foo-123"
in the output. -/
theorem claim_parse_listing_links_resolves (anchors : List String)
    (h : "/s-anzeige/foo-123" ∈ anchors) :
    "https://www.kleinanzeigen.de/s-anzeige/foo-123" ∈
      parse_listing_links anchors := by
  have hmem := parseGo_mem "/s-anzeige/foo-123" (by decide) (by decide)
    anchors [] h
  have hres : resolveHref "/s-anzeige/foo-123" =
      "https://www.kleinanzeigen.de/s-anzeige/foo-123" := by decide
  rw [hres] at hmem
  simpa [parse_listing_links] using hmem

/-- Witness for claim C5 at a concrete anchor list. -/
theorem claim_parse_listing_links_resolves_witness :
    "https://www.kleinanzeigen.de/s-anzeige/foo-123" ∈
      parse_listing_links ["/s-anzeige/foo-123"] :=
  claim_parse_listing_links_resolves ["/s-anzeige/foo-123"] (by decide)

end Kleinanzeigen

namespace Kleinanzeigen

theorem scrapeLoop_pages_le (net : Network) (N : Nat) (hN : 0 < N) :
    ∀ (fuel : Nat) (links : List String) (page q : Nat),
      q ∈ (scrapeLoop net (some N) fuel links page).fst → q ≤ N := by
  intro fuel
  induction fuel with
  | zero => intro links page q hq; simp [scrapeLoop] at hq
  | succ f ih =>
    intro links page q hq
    rw [scrapeLoop] at hq
    split at hq
    · simp at hq
    · rename_i hlim
      have hpage : page ≤ N := by
        simp only [pageLimitReached] at hlim
        rw [if_neg (by omega : ¬ N = 0)] at hlim
        simp only [decide_eq_true_iff] at hlim
        omega
      split at hq
      · simp at hq
        omega
      · split at hq
        · simp at hq
          omega
        · simp only [] at hq
          split at hq
          · simp at hq
            omega
          · simp only [] at hq
            rcases List.mem_cons.mp hq with rfl | hq
            · exact hpage
            · exact ih _ _ q hq

/-- Claim C1 (amended): for every page-1 HTML from which a nonzero total ad
count `t` is found, `scrape_seller_listings` computes an expected page count
equal to the ceiling of `t / 25` (characterized by the two arithmetic
conjuncts) and never requests a page whose number exceeds that bound. -/
theorem claim_scrape_respects_count_bound (net : Network) (fuel : Nat)
    (p1 : Page) (t : Nat)
    (h1 : net 1 = Except.ok p1)
    (hc : extract_total_count p1.rawText = some t) (ht : 0 < t) :
    numPagesOf (some t) = some (expectedPages t) ∧
    t ≤ 25 * expectedPages t ∧ 25 * (expectedPages t - 1) < t ∧
    ∀ q ∈ (scrape_seller_listings net fuel).fst, q ≤ expectedPages t := by
  have hE1 : 1 ≤ expectedPages t := by unfold expectedPages; omega
  have hnum : numPagesOf (some t) = some (expectedPages t) := by
    simp only [numPagesOf]
    rw [if_neg (by omega : ¬ t = 0)]
  refine ⟨hnum, by unfold expectedPages; omega,
    by unfold expectedPages; omega, ?_⟩
  intro q hq
  rw [scrape_seller_listings.eq_def, h1] at hq
  simp only [] at hq
  split at hq
  · simp at hq
    omega
  · simp only [] at hq
    rw [hc, hnum] at hq
    rcases List.mem_cons.mp hq with rfl | hq
    · exact hE1
    · exact scrapeLoop_pages_le net (expectedPages t) (by omega) fuel _ 2 q hq

/-- Witness for claim C1: with a mocked total count of 30 (2 expected pages
at 25 per page) no requested page number exceeds 2; in particular page 3 is
never attempted even though the fetch of page 3 would succeed. -/
theorem claim_scrape_respects_count_bound_witness :
    (∀ q ∈ (scrape_seller_listings netCountBound 6).fst,
      q ≤ expectedPages 30) ∧
    (scrape_seller_listings netCountBound 6).fst = [1, 2] :=
  ⟨(claim_scrape_respects_count_bound netCountBound 6
      ⟨200, ["/s-anzeige/a-1", "/s-anzeige/b-2"], "30 Anzeigen online"⟩ 30
      rfl (by decide) (by decide)).2.2.2,
   by decide⟩

/-- Counterexample to claim C1 as stated: on a page-1 HTML from which the
total ad count 0 is found, the expected page count of the claim would be
the ceiling of 0 / 25, that is 0 pages, yet the scraper goes on to request
pages 2 and 3 — a found count of zero is treated like an absent count. -/
theorem claim_scrape_respects_count_bound_counterexample :
    extract_total_count "0 Anzeigen online" = some 0 ∧
    expectedPages 0 = 0 ∧
    (scrape_seller_listings netZeroCount 5).fst = [1, 2, 3] :=
  ⟨by decide, by decide, by decide⟩

/-- Claim C2: whenever the pagination loop reaches page `n` with accumulated
collection `links` and page `n` yields no link that is not already in
`links` (by exact string equality), the loop stops at page `n`, returns
`links` unchanged, and never requests page `n + 1` (the request log of the
remaining loop is exactly `[n]`). -/
theorem claim_scrape_stops_on_no_new_links (net : Network)
    (numPages : Option Nat) (links : List String) (page fuel : Nat)
    (p : Page)
    (hlim : pageLimitReached numPages page = false)
    (hnet : net page = Except.ok p) (hst : p.status = 200)
    (hnew : ∀ u ∈ parse_listing_links p.anchors, u ∈ links) :
    scrapeLoop net numPages (fuel + 1) links page =
      ([page], ScrapeOutcome.ok links) := by
  have hfil : (parse_listing_links p.anchors).filter
      (fun u => !(links.contains u)) = [] := by
    rw [List.filter_eq_nil_iff]
    intro a ha
    simpa using hnew a ha
  rw [scrapeLoop, if_neg (by simp [hlim]), hnet]
  simp only []
  rw [if_neg (by simp [hst] : ¬ p.status ≠ 200), if_pos hfil]

/-- Witness for claim C2: three mocked pages where page 3 repeats only links
from pages 1 and 2; the loop reached page 3 with the union of pages 1 and 2
accumulated, stops there with that collection, and the full run requests
exactly pages 1, 2, 3 — never page 4. -/
theorem claim_scrape_stops_on_no_new_links_witness :
    scrapeLoop netThreePages none (4 + 1)
      ["https://www.kleinanzeigen.de/s-anzeige/a-1",
       "https://www.kleinanzeigen.de/s-anzeige/b-2",
       "https://www.kleinanzeigen.de/s-anzeige/c-3"] 3 =
      ([3], ScrapeOutcome.ok
        ["https://www.kleinanzeigen.de/s-anzeige/a-1",
         "https://www.kleinanzeigen.de/s-anzeige/b-2",
         "https://www.kleinanzeigen.de/s-anzeige/c-3"]) ∧
    scrape_seller_listings netThreePages 9 =
      ([1, 2, 3], ScrapeOutcome.ok
        ["https://www.kleinanzeigen.de/s-anzeige/a-1",
         "https://www.kleinanzeigen.de/s-anzeige/b-2",
         "https://www.kleinanzeigen.de/s-anzeige/c-3"]) :=
  ⟨claim_scrape_stops_on_no_new_links netThreePages none
      ["https://www.kleinanzeigen.de/s-anzeige/a-1",
       "https://www.kleinanzeigen.de/s-anzeige/b-2",
       "https://www.kleinanzeigen.de/s-anzeige/c-3"] 3 4
      ⟨200, ["/s-anzeige/a-1", "/s-anzeige/c-3"], ""⟩
      rfl rfl rfl (by decide),
   by decide⟩

/-- Claim C7 (amended): for every run in which the page-1 request raises a
transport error or returns an HTTP error status in 400–599 (the statuses
`raise_for_status` raises on), `scrape_seller_listings` fails as a whole —
the outcome is an error carrying no links. -/
theorem claim_scrape_page1_failure (net : Network) (fuel : Nat)
    (h : (∃ e, net 1 = Except.error e) ∨
      (∃ p, net 1 = Except.ok p ∧ 400 ≤ p.status ∧ p.status < 600)) :
    ∃ e, (scrape_seller_listings net fuel).snd = ScrapeOutcome.error e := by
  rcases h with ⟨e, he⟩ | ⟨p, hp, h4, h6⟩
  · exact ⟨ScrapeError.network, by rw [scrape_seller_listings.eq_def, he]⟩
  · refine ⟨ScrapeError.httpStatus p.status, ?_⟩
    rw [scrape_seller_listings.eq_def, hp]
    simp only []
    rw [if_pos ⟨h4, h6⟩]

/-- Witness for claim C7 at a mocked network whose first request raises. -/
theorem claim_scrape_page1_failure_witness :
    ∃ e, (scrape_seller_listings netFailFirst 3).snd =
      ScrapeOutcome.error e :=
  claim_scrape_page1_failure netFailFirst 3 (Or.inl ⟨(), rfl⟩)

/-- Counterexample to claim C7 as stated: a page-1 response with status 304
is not a success status (it is outside the 2xx class), yet the run does not
fail — it returns one link as a success, because `raise_for_status` only
raises on 400–599. -/
theorem claim_scrape_page1_failure_counterexample :
    successStatus 304 = false ∧
    scrape_seller_listings netRedirect 5 =
      ([1, 2], ScrapeOutcome.ok
        ["https://www.kleinanzeigen.de/s-anzeige/only-1"]) :=
  ⟨by decide, by decide⟩

/-- Claim C8: whenever the pagination loop reaches a page `n ≥ 2` and its
fetch returns a non-success (non-2xx) HTTP status, the run does not fail:
the loop stops silently at page `n` and the links accumulated from the
earlier pages are returned as a successful result. -/
theorem claim_scrape_stops_on_non_success (net : Network)
    (numPages : Option Nat) (links : List String) (page fuel : Nat)
    (p : Page)
    (hlim : pageLimitReached numPages page = false)
    (hnet : net page = Except.ok p)
    (hst : successStatus p.status = false) :
    scrapeLoop net numPages (fuel + 1) links page =
      ([page], ScrapeOutcome.ok links) := by
  have h200 : p.status ≠ 200 := by
    intro h
    rw [h] at hst
    exact absurd hst (by decide)
  rw [scrapeLoop, if_neg (by simp [hlim]), hnet]
  simp only []
  rw [if_pos h200]

/-- Witness for claim C8: a mocked page 2 answering 500 stops the loop
silently, returning the page-1 links as a success. -/
theorem claim_scrape_stops_on_non_success_witness :
    scrapeLoop netServerError none (0 + 1)
      ["https://www.kleinanzeigen.de/s-anzeige/a-1"] 2 =
      ([2], ScrapeOutcome.ok
        ["https://www.kleinanzeigen.de/s-anzeige/a-1"]) :=
  claim_scrape_stops_on_non_success netServerError none
    ["https://www.kleinanzeigen.de/s-anzeige/a-1"] 2 0
    ⟨500, ["/s-anzeige/x-9"], ""⟩ rfl rfl (by decide)

end Kleinanzeigen

namespace Kleinanzeigen

theorem searchCount_some :
    ∀ (cs : List Char) (n : Nat), searchCount cs = some n →
      ∃ pre suf, cs = pre ++ suf ∧ matchCountAt suf = some n := by
  intro cs
  induction cs with
  | nil => intro n h; simp [searchCount] at h
  | cons c cs ih =>
    intro n h
    rw [searchCount] at h
    rcases hm : matchCountAt (c :: cs) with _ | m
    · rw [hm] at h
      simp only [] at h
      obtain ⟨pre, suf, heq, hms⟩ := ih n h
      exact ⟨c :: pre, suf, by rw [heq, List.cons_append], hms⟩
    · rw [hm] at h
      simp only [] at h
      injection h with h
      exact ⟨[], c :: cs, rfl, by rw [hm, h]⟩

theorem tryDigitLens_some :
    ∀ (cs : List Char) (K n : Nat), tryDigitLens cs K = some n →
      ∃ j, 1 ≤ j ∧ j ≤ K ∧ matchTail (cs.drop j) = true ∧
        n = natOfDigits (cs.take j) 0 := by
  intro cs K
  induction K with
  | zero => intro n h; simp [tryDigitLens] at h
  | succ k ih =>
    intro n h
    rw [tryDigitLens] at h
    by_cases hmt : matchTail (cs.drop (k + 1)) = true
    · rw [if_pos hmt] at h
      injection h with h
      exact ⟨k + 1, by omega, le_refl _, hmt, h.symm⟩
    · rw [if_neg hmt] at h
      obtain ⟨j, hj1, hj2, hj3, hj4⟩ := ih n h
      exact ⟨j, hj1, by omega, hj3, hj4⟩

theorem take_all_digits :
    ∀ (cs : List Char) (j : Nat), j ≤ (cs.takeWhile isDigitChar).length →
      ∀ c ∈ cs.take j, isDigitChar c = true := by
  intro cs
  induction cs with
  | nil => intro j hj c hc; simp at hc
  | cons a cs ih =>
    intro j hj c hc
    cases j with
    | zero => simp at hc
    | succ j =>
      by_cases hd : isDigitChar a = true
      · rw [List.takeWhile_cons, if_pos hd] at hj
        simp only [List.length_cons] at hj
        rw [List.take_succ_cons] at hc
        rcases List.mem_cons.mp hc with rfl | hc
        · exact hd
        · exact ih j (by omega) c hc
      · rw [List.takeWhile_cons, if_neg hd] at hj
        simp at hj
  
theorem natOfDigits_lt :
    ∀ (ds : List Char), (∀ c ∈ ds, isDigitChar c = true) →
      ∀ acc, natOfDigits ds acc < (acc + 1) * 10 ^ ds.length := by
  intro ds
  induction ds with
  | nil => intro _ acc; simp [natOfDigits]
  | cons c cs ih =>
    intro hd acc
    have hc : isDigitChar c = true := hd c (List.mem_cons_self _ _)
    have hval : digitVal c ≤ 9 := by
      simp only [isDigitChar, Bool.and_eq_true, decide_eq_true_iff] at hc
      unfold digitVal
      omega
    rw [natOfDigits]
    calc natOfDigits cs (10 * acc + digitVal c)
        < (10 * acc + digitVal c + 1) * 10 ^ cs.length :=
          ih (fun x hx => hd x (List.mem_cons_of_mem _ hx)) _
      _ ≤ (10 * (acc + 1)) * 10 ^ cs.length :=
          Nat.mul_le_mul (by omega) (le_refl _)
      _ = (acc + 1) * 10 ^ (c :: cs).length := by
          rw [List.length_cons, pow_succ]
          ring

theorem stripWord_some :
    ∀ (w cs rest : List Char), stripWord w cs = some rest → cs = w ++ rest := by
  intro w
  induction w with
  | nil =>
    intro cs rest h
    simp only [stripWord, Option.some.injEq] at h
    simp [h]
  | cons a w ih =>
    intro cs rest h
    cases cs with
    | nil => simp [stripWord] at h
    | cons c cs =>
      rw [stripWord] at h
      by_cases hc : c = a
      · rw [if_pos hc] at h
        simp [hc, ih cs rest h]
      · rw [if_neg hc] at h
        simp at h

theorem dropSpaces1_some (cs rest : List Char)
    (h : dropSpaces1 cs = some rest) :
    ∃ sp, cs = sp ++ rest ∧ sp ≠ [] ∧ ∀ c ∈ sp, isSpaceChar c = true := by
  cases cs with
  | nil => simp [dropSpaces1] at h
  | cons c cs =>
    rw [dropSpaces1] at h
    by_cases hc : isSpaceChar c = true
    · rw [if_pos hc] at h
      injection h with h
      refine ⟨c :: cs.takeWhile isSpaceChar, ?_, by simp, ?_⟩
      · rw [List.cons_append, ← h, List.takeWhile_append_dropWhile]
      · intro x hx
        rcases List.mem_cons.mp hx with rfl | hx
        · exact hc
        · exact List.mem_takeWhile_imp hx
    · rw [if_neg hc] at h
      simp at h

theorem matchTail_decompose (cs : List Char) (h : matchTail cs = true) :
    ∃ sp1 sp2 post,
      cs = sp1 ++ ("Anzeigen".data ++ (sp2 ++ ("online".data ++ post))) ∧
      sp1 ≠ [] ∧ (∀ c ∈ sp1, isSpaceChar c = true) ∧
      sp2 ≠ [] ∧ (∀ c ∈ sp2, isSpaceChar c = true) := by
  unfold matchTail at h
  rcases h1 : dropSpaces1 cs with _ | cs1
  · rw [h1] at h; simp at h
  · rw [h1] at h
    simp only [] at h
    rcases h2 : stripWord "Anzeigen".data cs1 with _ | cs2
    · rw [h2] at h; simp at h
    · rw [h2] at h
      simp only [] at h
      rcases h3 : dropSpaces1 cs2 with _ | cs3
      · rw [h3] at h; simp at h
      · rw [h3] at h
        simp only [] at h
        rcases h4 : stripWord "online".data cs3 with _ | post
        · rw [h4] at h; simp at h
        · obtain ⟨sp1, hcs, hsp1ne, hsp1⟩ := dropSpaces1_some cs cs1 h1
          have hw1 := stripWord_some _ cs1 cs2 h2
          obtain ⟨sp2, hcs2, hsp2ne, hsp2⟩ := dropSpaces1_some cs2 cs3 h3
          have hw2 := stripWord_some _ cs3 post h4
          refine ⟨sp1, sp2, post, ?_, hsp1ne, hsp1, hsp2ne, hsp2⟩
          rw [hcs, hw1, hcs2, hw2]

theorem matchCountAt_some (cs : List Char) (n : Nat)
    (h : matchCountAt cs = some n) :
    ∃ ds rest, cs = ds ++ rest ∧ 1 ≤ ds.length ∧ ds.length ≤ 5 ∧
      (∀ c ∈ ds, isDigitChar c = true) ∧ matchTail rest = true ∧
      n = natOfDigits ds 0 := by
  unfold matchCountAt at h
  obtain ⟨j, hj1, hj2, hmt, hn⟩ := tryDigitLens_some cs _ n h
  have hj5 : j ≤ 5 := le_trans hj2 (min_le_left _ _)
  have hjrun : j ≤ (cs.takeWhile isDigitChar).length :=
    le_trans hj2 (min_le_right _ _)
  have hne : cs.drop j ≠ [] := by
    intro hnil
    rw [hnil] at hmt
    exact absurd hmt (by decide)
  have hlen : j < cs.length := by
    by_contra hge
    exact hne (List.drop_eq_nil_of_le (by omega))
  refine ⟨cs.take j, cs.drop j, (List.take_append_drop j cs).symm, ?_, ?_,
    take_all_digits cs j hjrun, hmt, hn⟩
  · rw [List.length_take]; omega
  · rw [List.length_take]; omega

theorem extract_some_pattern (s : String) (n : Nat)
    (h : extract_total_count s = some n) : PatternOccurrence s.data := by
  obtain ⟨pre, suf, heq, hm⟩ := searchCount_some s.data n h
  obtain ⟨ds, rest, hsuf, hd1, hd5, hdig, hmt, _⟩ := matchCountAt_some suf n hm
  obtain ⟨sp1, sp2, post, hrest, hsp1ne, hsp1, hsp2ne, hsp2⟩ :=
    matchTail_decompose rest hmt
  refine ⟨pre, ds, sp1, sp2, post, ?_, hd1, hd5, hdig,
    hsp1ne, hsp1, hsp2ne, hsp2⟩
  rw [heq, hsuf, hrest]
  simp [List.append_assoc]

/-- Claim C6 (amended): `extract_total_count` returns the integer value of
the leftmost match of the pattern: on the exact text "1489 Anzeigen online"
it returns 1489, and on any ASCII text in which the
digits-then-"Anzeigen"-then-"online" pattern does not occur at all it
returns absent.  The ASCII restriction marks the domain on which the
embedded character classes coincide with Python's `\s` and `\d`, which
additionally match non-ASCII characters such as U+00A0 or Eastern Arabic
digits. -/
theorem claim_extract_total_count_spec :
    extract_total_count "1489 Anzeigen online" = some 1489 ∧
    ∀ s : String, (∀ c ∈ s.data, c.toNat < 128) →
      ¬ PatternOccurrence s.data → extract_total_count s = none := by
  refine ⟨by decide, ?_⟩
  intro s _ hno
  rcases hval : extract_total_count s with _ | n
  · rfl
  · exact absurd (extract_some_pattern s n hval) hno

/-- Witness for claim C6 on an ASCII text without any occurrence of the
pattern (an occurrence needs at least 17 characters). -/
theorem claim_extract_total_count_spec_witness :
    extract_total_count "keine Zahl" = none := by
  refine claim_extract_total_count_spec.2 "keine Zahl" (by decide) ?_
  rintro ⟨pre, ds, sp1, sp2, post, heq, hd1, _, _, hsp1ne, _, hsp2ne, _⟩
  have hlen := congrArg List.length heq
  have h10 : ("keine Zahl".data).length = 10 := by decide
  have hA : ("Anzeigen".data).length = 8 := by decide
  have hO : ("online".data).length = 6 := by decide
  have hs1 : 0 < sp1.length := List.length_pos.mpr hsp1ne
  have hs2 : 0 < sp2.length := List.length_pos.mpr hsp2ne
  simp only [List.length_append, h10, hA, hO] at hlen
  omega

/-- Counterexample to claim C6 as stated: this text contains the substring
"1489 Anzeigen online", yet `extract_total_count` returns the value 0 of
the leftmost pattern match, not 1489. -/
theorem claim_extract_total_count_counterexample :
    ("1489 Anzeigen online").data <:+: c6Text.data ∧
    extract_total_count c6Text = some 0 ∧
    extract_total_count c6Text ≠ some 1489 :=
  ⟨by decide, by decide, by decide⟩

/-- Claim C9: `create_download_file` raises an error (producing no
content-type/payload pair) exactly when the format selector is outside
the set txt, csv, xlsx, docx, or when the selector is docx and the
document-export backend is unavailable; no other format is affected by the
backend's availability. -/
theorem claim_create_download_file_error_iff :
    ∀ (docxAvailable : Bool) (links : List String) (file_type : String),
      (∃ e, create_download_file docxAvailable links file_type =
        Except.error e) ↔
      (file_type ∉ ["txt", "csv", "xlsx", "docx"] ∨
        (file_type = "docx" ∧ docxAvailable = false)) := by
  intro docxAvailable links file_type
  unfold create_download_file
  by_cases h1 : file_type = "txt"
  · subst h1; simp
  · rw [if_neg h1]
    by_cases h2 : file_type = "csv"
    · subst h2; simp
    · rw [if_neg h2]
      by_cases h3 : file_type = "xlsx"
      · subst h3; simp
      · rw [if_neg h3]
        by_cases h4 : file_type = "docx"
        · subst h4
          cases docxAvailable <;> simp
        · rw [if_neg h4]
          simp [h1, h2, h3, h4]

/-- Claim C10: every value returned by `extract_total_count` lies between 0
and 99999 (the pattern captures one to five digits), and a returned count of
exactly 0 makes the scraper compute no expected page count at all — the
pagination loop behaves identically to the absent-count case. -/
theorem claim_extract_total_count_bound_zero :
    (∀ (s : String) (n : Nat), extract_total_count s = some n → n ≤ 99999) ∧
    numPagesOf (some 0) = numPagesOf none ∧
    (∀ (net : Network) (fuel : Nat) (links : List String) (page : Nat),
      scrapeLoop net (numPagesOf (some 0)) fuel links page =
        scrapeLoop net (numPagesOf none) fuel links page) := by
  refine ⟨?_, rfl, fun _ _ _ _ => rfl⟩
  intro s n h
  obtain ⟨pre, suf, _, hm⟩ := searchCount_some s.data n h
  obtain ⟨ds, rest, _, _, hd5, hdig, _, hn⟩ := matchCountAt_some suf n hm
  have hlt : n < 10 ^ ds.length := by
    rw [hn]
    simpa using natOfDigits_lt ds hdig 0
  have hten : (10 : Nat) ^ ds.length ≤ 10 ^ 5 :=
    Nat.pow_le_pow_right (by omega) hd5
  have hval : (10 : Nat) ^ 5 = 100000 := by norm_num
  omega

/-- Witness for claim C10 at a concrete text yielding the count 7. -/
theorem claim_extract_total_count_bound_zero_witness :
    extract_total_count "7 Anzeigen online" = some 7 ∧ 7 ≤ 99999 :=
  ⟨by decide,
   claim_extract_total_count_bound_zero.1 "7 Anzeigen online" 7 (by decide)⟩

end Kleinanzeigen
